import Mathlib

/-!
# todo-go-neo4j: tasks with an optional parent, kept in a graph store

A shallow embedding of the task code of the repository:

* `src/app/models/task.go`              the `Task` value;
* `src/app/services/task_service.go`    `TaskService` (namespace `TaskService`);
* `src/app/controllers/task_controller.go`  `TaskController` (namespace `TaskController`);
* `src/main.go`                         the single-file handlers (namespace `Main`).

The graph store is outside the repository.  It is modelled by `Graph`: task nodes
with the three properties the code writes, and `HAS_PARENT` relationships between
nodes.  Every Cypher statement of the source is one function on `Graph`.  What the
store and the driver decide on their own is passed in explicitly: whether a
transaction fails (`Option String`, the error), the identifier `uuid.New()` hands
out, and the place a created node takes in match order.  `GetTaskByID` also takes
the outcome of its type assertion to `neo4j.Result` as an argument; the source
fixes that outcome (`runValueIsResult`), and the statements about the reads the
program performs are made at that value.
-/

namespace TodoNeo4j

/-! ## Values and tasks -/

/-- A value of a query record (`record.Values[i]`, of Go type `any`). -/
inductive Value where
  | null
  | str (s : String)
  | bool (b : Bool)
  | int (i : Int)
  deriving DecidableEq, Repr

/-- The struct `models.Task` (and `Task` of `src/main.go`); `ParentID` is a `*string`. -/
structure Task where
  ID : String
  Title : String
  Completed : Bool
  ParentID : Option String
  deriving DecidableEq, Repr

/-- How a Go call ends when it does not return normally: with a non-nil `error`,
or by panicking. -/
inductive Fault where
  | error (msg : String)
  | panic (msg : String)
  deriving DecidableEq, Repr

deriving instance DecidableEq for Except

/-! ## The graph store -/

/-- A task node: `nid` is the identity the store gives the node, the other three
fields are the properties `id`, `title`, `completed`. -/
structure Node where
  nid : Nat
  id : String
  title : String
  completed : Bool
  deriving DecidableEq, Repr

/-- The store: its task nodes in match order, its `HAS_PARENT` relationships as
(start node, end node), and the next unused node identity. -/
structure Graph where
  nodes : List Node
  rels : List (Nat × Nat)
  next : Nat
  deriving DecidableEq, Repr

/-- The empty store. -/
def Graph.empty : Graph := ⟨[], [], 0⟩

/-- The pattern `(t:Task {id: $id})`. -/
def Graph.matchTask (g : Graph) (id : String) : List Node :=
  g.nodes.filter (fun t => decide (t.id = id))

/-- The pattern `(t)-[:HAS_PARENT]->(p:Task)` for a bound `t`: the end nodes of the
relationships that start at `t`. -/
def Graph.parents (g : Graph) (t : Node) : List Node :=
  (g.rels.filter (fun r => decide (r.1 = t.nid))).flatMap
    (fun r => g.nodes.filter (fun p => decide (p.nid = r.2)))

/-- The rows `OPTIONAL MATCH (t)-[:HAS_PARENT]->(p:Task)
RETURN t.id, t.title, t.completed, p.id` gives for a bound `t`. -/
def Graph.rowsOf (g : Graph) (t : Node) : List (List Value) :=
  match g.parents t with
  | [] => [[Value.str t.id, Value.str t.title, Value.bool t.completed, Value.null]]
  | p :: ps =>
    (p :: ps).map (fun q => [Value.str t.id, Value.str t.title, Value.bool t.completed, Value.str q.id])

/-- The query of `GetTasks`: `MATCH (t:Task) OPTIONAL MATCH ... RETURN ...`. -/
def Graph.queryAll (g : Graph) : List (List Value) :=
  g.nodes.flatMap g.rowsOf

/-- The query of `GetTaskByID`: `MATCH (t:Task {id: $id}) OPTIONAL MATCH ... RETURN ...`. -/
def Graph.queryByID (g : Graph) (id : String) : List (List Value) :=
  (g.matchTask id).flatMap g.rowsOf

/-- The statement `CREATE (t:Task {id: $id, title: $title, completed: $completed})`.
The new node gets the next identity; `pos` is the place the store gives it in
match order. -/
def Graph.createNode (g : Graph) (pos : Nat) (id title : String) (completed : Bool) : Graph :=
  { nodes := g.nodes.take pos ++ ⟨g.next, id, title, completed⟩ :: g.nodes.drop pos
    rels := g.rels
    next := g.next + 1 }

/-- The statement `MATCH (child:Task {id: $childID}), (parent:Task {id: $parentID})
CREATE (child)-[:HAS_PARENT]->(parent)`: one relationship per matched pair. -/
def Graph.createRels (g : Graph) (childID parentID : String) : Graph :=
  { g with
    rels := g.rels ++
      (g.matchTask childID).flatMap (fun c => (g.matchTask parentID).map (fun p => (c.nid, p.nid))) }

/-- The statement `MATCH (t:Task {id: $id}) SET t.title = $title, t.completed = $completed`. -/
def Graph.setTask (g : Graph) (id title : String) (completed : Bool) : Graph :=
  { g with
    nodes := g.nodes.map
      (fun t => if t.id = id then { t with title := title, completed := completed } else t) }

/-- The clause `DETACH DELETE` on the nodes whose identity is in `dead`: the nodes go,
and with them every relationship that starts or ends at one of them. -/
def Graph.detachDelete (g : Graph) (dead : List Nat) : Graph :=
  { g with
    nodes := g.nodes.filter (fun t => decide (t.nid ∉ dead))
    rels := g.rels.filter (fun r => decide (r.1 ∉ dead) && decide (r.2 ∉ dead)) }

/-- The first statement of `DeleteTask`:
`MATCH (t:Task {id: $id})-[:HAS_PARENT]->(child:Task) DETACH DELETE child`. -/
def Graph.deleteHasParentTargets (g : Graph) (id : String) : Graph :=
  g.detachDelete (((g.matchTask id).flatMap g.parents).map (fun child => child.nid))

/-- The second statement of `DeleteTask`: `MATCH (t:Task {id: $id}) DETACH DELETE t`. -/
def Graph.deleteSelf (g : Graph) (id : String) : Graph :=
  g.detachDelete ((g.matchTask id).map (fun t => t.nid))

/-! ## Mapping a record to a task -/

/-- The indexing `record.Values[i]`; out of range is a panic. -/
def valueAt (values : List Value) (i : Nat) : Except Fault Value :=
  match values.get? i with
  | some v => Except.ok v
  | none => Except.error (Fault.panic "index out of range")

/-- The type assertion `v.(string)`, in its one-result form: a panic on any other type. -/
def assertString : Value → Except Fault String
  | Value.str s => Except.ok s
  | _ => Except.error (Fault.panic "interface conversion: interface is not string")

/-- The type assertion `v.(bool)`, in its one-result form. -/
def assertBool : Value → Except Fault Bool
  | Value.bool b => Except.ok b
  | _ => Except.error (Fault.panic "interface conversion: interface is not bool")

/-- The record-to-task code that `GetTasks`, `GetTaskByID`, `getTasks` and
`getTaskByID` each spell out: the parent first (`nil` gives no parent), then the
three fields in order. -/
def recordToTask (values : List Value) : Except Fault Task := do
  let v3 ← valueAt values 3
  let parentID ← match v3 with
    | Value.null => pure none
    | v => do
      let id ← assertString v
      pure (some id)
  let id ← assertString (← valueAt values 0)
  let title ← assertString (← valueAt values 1)
  let completed ← assertBool (← valueAt values 2)
  pure { ID := id, Title := title, Completed := completed, ParentID := parentID }

/-- The loop `for res.Next(ctx)` of `GetTasks`: each record is mapped and appended. -/
def collectTasks : List (List Value) → List Task → Except Fault (List Task)
  | [], tasks => Except.ok tasks
  | record :: rest, tasks => do
    let t ← recordToTask record
    collectTasks rest (tasks ++ [t])

/-! ## `TaskService` (src/app/services/task_service.go) -/

namespace TaskService

/-- The method `GetTasks`: one read transaction; `txErr` is its error when it fails
(`tx.Run` or `res.Err()`). -/
def GetTasks (g : Graph) (txErr : Option String) : Except Fault (List Task) :=
  match txErr with
  | some e => Except.error (Fault.error e)
  | none => collectTasks g.queryAll []

/-- The outcome of the assertion `result.(neo4j.Result)` of `GetTaskByID` on the value
`tx.Run` returned: it fails.  `GetTasks` calls `res.Next(ctx)` on such a value, the
code calls `res.Next()` on a `neo4j.Result`, and a Go type has one method `Next`,
so the value that has `Next(ctx)` does not satisfy `neo4j.Result`. -/
def runValueIsResult : Bool := false

/-- The method `GetTaskByID`.  The result is the Go pair `(*Task, error)`:
`ok (some t)` is `(t, nil)`, `ok none` is `(nil, nil)`, `error` a non-nil error or
a panic.  `txErr` is the error of the read transaction, `isResult` says whether the
value it returned satisfies `neo4j.Result`, `resErr` is what `res.Err()` gives. -/
def GetTaskByID (g : Graph) (taskID : String) (txErr : Option String) (isResult : Bool)
    (resErr : Option String) : Except Fault (Option Task) :=
  match txErr with
  | some e => Except.error (Fault.error e)
  | none =>
    if !isResult then
      Except.error (Fault.error "failed to assert result to neo4j.Result")
    else
      match g.queryByID taskID with
      | record :: _ =>
        match recordToTask record with
        | Except.ok t => Except.ok (some t)
        | Except.error f => Except.error f
      | [] =>
        match resErr with
        | some e => Except.error (Fault.error e)
        | none => Except.error (Fault.error "task not found")

/-- The identifier `CreateTask` gives the task: `uuid` when `task.ID` is empty. -/
def assignID (task : Task) (uuid : String) : Task :=
  if task.ID = "" then { task with ID := uuid } else task

/-- The method `CreateTask`.  Two write transactions: the first creates the node,
the second (only for a non-empty `ParentID`) the relationships, and its outcome is
not looked at.  A transaction that fails leaves the store as it was. -/
def CreateTask (g : Graph) (task : Task) (uuid : String) (pos : Nat)
    (txErr1 txErr2 : Option String) : Graph × Except Fault Task :=
  let task := assignID task uuid
  match txErr1 with
  | some e => (g, Except.error (Fault.error e))
  | none =>
    let g1 := g.createNode pos task.ID task.Title task.Completed
    let g2 :=
      match task.ParentID with
      | some parentID =>
        if parentID ≠ "" then
          match txErr2 with
          | some _ => g1
          | none => g1.createRels task.ID parentID
        else g1
      | none => g1
    (g2, Except.ok task)

/-- The method `UpdateTask`: one write transaction; its error is the result. -/
def UpdateTask (g : Graph) (taskID title : String) (completed : Bool)
    (txErr : Option String) : Graph × Except Fault Unit :=
  match txErr with
  | some e => (g, Except.error (Fault.error e))
  | none => (g.setTask taskID title completed, Except.ok ())

/-- The method `DeleteTask`: both statements in one write transaction. -/
def DeleteTask (g : Graph) (taskID : String) (txErr : Option String) :
    Graph × Except Fault Unit :=
  match txErr with
  | some e => (g, Except.error (Fault.error e))
  | none => ((g.deleteHasParentTargets taskID).deleteSelf taskID, Except.ok ())

end TaskService

/-! ## HTTP replies -/

/-- What a handler writes as the body. -/
inductive Body where
  | text (s : String)
  | task (t : Task)
  | tasks (ts : List Task)
  | empty
  deriving DecidableEq, Repr

/-- What a handler does to the request: a status and body, or a panic before
anything is written. -/
inductive Reply where
  | sent (status : Nat) (body : Body)
  | panicked (msg : String)
  deriving DecidableEq, Repr

/-- The status of a reply, when one was written. -/
def Reply.status : Reply → Option Nat
  | Reply.sent s _ => some s
  | Reply.panicked _ => none

/-! ## `TaskController` (src/app/controllers/task_controller.go) -/

namespace TaskController

/-- The handler `GetTaskByID` for `GET /tasks/{taskID}`. -/
def GetTaskByID (g : Graph) (taskID : String) (txErr : Option String) (isResult : Bool)
    (resErr : Option String) : Reply :=
  match TaskService.GetTaskByID g taskID txErr isResult resErr with
  | Except.error (Fault.error msg) => Reply.sent 500 (Body.text msg)
  | Except.error (Fault.panic msg) => Reply.panicked msg
  | Except.ok none => Reply.sent 404 (Body.text "Task not found")
  | Except.ok (some task) => Reply.sent 200 (Body.task task)

/-- The handler `CreateTask` for `POST /tasks`; `payload` is the decoded body,
`none` when it does not decode. -/
def CreateTask (g : Graph) (payload : Option Task) (uuid : String) (pos : Nat)
    (txErr1 txErr2 : Option String) : Graph × Reply :=
  match payload with
  | none => (g, Reply.sent 400 (Body.text "Invalid request payload"))
  | some task =>
    match TaskService.CreateTask g task uuid pos txErr1 txErr2 with
    | (g1, Except.error (Fault.error msg)) => (g1, Reply.sent 500 (Body.text msg))
    | (g1, Except.error (Fault.panic msg)) => (g1, Reply.panicked msg)
    | (g1, Except.ok newTask) => (g1, Reply.sent 201 (Body.task newTask))

end TaskController

/-! ## The single-file program (src/main.go) -/

namespace Main

/-- The handler `createTask`: a new identifier always, `Completed` set to false, and
both statements in one write transaction. -/
def createTask (g : Graph) (payload : Option Task) (uuid : String) (pos : Nat)
    (txErr : Option String) : Graph × Reply :=
  match payload with
  | none => (g, Reply.sent 400 (Body.text "Invalid request payload"))
  | some task =>
    let task := { task with ID := uuid, Completed := false }
    match txErr with
    | some e => (g, Reply.sent 500 (Body.text e))
    | none =>
      let g1 := g.createNode pos task.ID task.Title task.Completed
      let g2 :=
        match task.ParentID with
        | some parentID => if parentID ≠ "" then g1.createRels task.ID parentID else g1
        | none => g1
      (g2, Reply.sent 201 (Body.task task))

/-- The handler `getTasks`: the same query and loop as `TaskService.GetTasks`. -/
def getTasks (g : Graph) (txErr : Option String) : Reply :=
  match txErr with
  | some e => Reply.sent 500 (Body.text e)
  | none =>
    match collectTasks g.queryAll [] with
    | Except.ok tasks => Reply.sent 200 (Body.tasks tasks)
    | Except.error (Fault.error msg) => Reply.sent 500 (Body.text msg)
    | Except.error (Fault.panic msg) => Reply.panicked msg

/-- The handler `getTaskByID`: no row gives `(nil, nil)` and so status 404. -/
def getTaskByID (g : Graph) (taskID : String) (txErr : Option String) : Reply :=
  match txErr with
  | some e => Reply.sent 500 (Body.text e)
  | none =>
    match g.queryByID taskID with
    | record :: _ =>
      match recordToTask record with
      | Except.ok t => Reply.sent 200 (Body.task t)
      | Except.error (Fault.error msg) => Reply.sent 500 (Body.text msg)
      | Except.error (Fault.panic msg) => Reply.panicked msg
    | [] => Reply.sent 404 (Body.text "Task not found")

/-- The handler `updateTask`. -/
def updateTask (g : Graph) (taskID : String) (payload : Option (String × Bool))
    (txErr : Option String) : Graph × Reply :=
  match payload with
  | none => (g, Reply.sent 400 (Body.text "Invalid request payload"))
  | some updates =>
    match txErr with
    | some e => (g, Reply.sent 500 (Body.text e))
    | none => (g.setTask taskID updates.1 updates.2, Reply.sent 200 (Body.text "Task updated successfully"))

/-- The handler `deleteTask`: the same two statements as `TaskService.DeleteTask`. -/
def deleteTask (g : Graph) (taskID : String) (txErr : Option String) : Graph × Reply :=
  match txErr with
  | some e => (g, Reply.sent 500 (Body.text e))
  | none => ((g.deleteHasParentTargets taskID).deleteSelf taskID, Reply.sent 204 Body.empty)

end Main

/-! ## Reachable stores -/

/-- One call of a `TaskService` operation that writes, with any arguments and any
transaction outcomes.  A generated identifier is non-empty and new to the store. -/
inductive Step : Graph → Graph → Prop where
  | create (g : Graph) (task : Task) (uuid : String) (pos : Nat) (txErr1 txErr2 : Option String) :
      uuid ≠ "" → g.matchTask uuid = [] →
      Step g (TaskService.CreateTask g task uuid pos txErr1 txErr2).1
  | update (g : Graph) (taskID title : String) (completed : Bool) (txErr : Option String) :
      Step g (TaskService.UpdateTask g taskID title completed txErr).1
  | delete (g : Graph) (taskID : String) (txErr : Option String) :
      Step g (TaskService.DeleteTask g taskID txErr).1

/-- The stores the program can build from the empty store. -/
inductive Reachable : Graph → Prop where
  | empty : Reachable Graph.empty
  | step {g g1 : Graph} : Reachable g → Step g g1 → Reachable g1

/-- The stores the program builds when, besides, every `CreateTask` call gives its
task an identifier that no stored task carries (generated, or supplied and new). -/
inductive ReachableNewIDs : Graph → Prop where
  | empty : ReachableNewIDs Graph.empty
  | create {g : Graph} (task : Task) (uuid : String) (pos : Nat) (txErr1 txErr2 : Option String) :
      ReachableNewIDs g → g.matchTask (TaskService.assignID task uuid).ID = [] →
      ReachableNewIDs (TaskService.CreateTask g task uuid pos txErr1 txErr2).1
  | update {g : Graph} (taskID title : String) (completed : Bool) (txErr : Option String) :
      ReachableNewIDs g → ReachableNewIDs (TaskService.UpdateTask g taskID title completed txErr).1
  | delete {g : Graph} (taskID : String) (txErr : Option String) :
      ReachableNewIDs g → ReachableNewIDs (TaskService.DeleteTask g taskID txErr).1

/-- No two task nodes of the store carry the same `id`. -/
def Graph.UniqueIDs (g : Graph) : Prop :=
  (g.nodes.map (fun t => t.id)).Nodup

/-- What every reachable store satisfies.  Node identities are below `next` and
belong to one node each, relationships join identities below `next`, no `id` is
empty; a relationship into a node also goes into every older stored node of the
same `id` (`older`); and the relationships out of a node that is the youngest of
its `id` all end at nodes of one `id` that are not younger than it (`youngest`). -/
structure Graph.Inv (g : Graph) : Prop where
  nid_lt : ∀ t ∈ g.nodes, t.nid < g.next
  nid_inj : ∀ t ∈ g.nodes, ∀ u ∈ g.nodes, t.nid = u.nid → t = u
  rel_lt : ∀ r ∈ g.rels, r.1 < g.next ∧ r.2 < g.next
  id_ne : ∀ t ∈ g.nodes, t.id ≠ ""
  older : ∀ r ∈ g.rels, ∀ q1 ∈ g.nodes, q1.nid = r.2 →
    ∀ q ∈ g.nodes, q.id = q1.id → q.nid ≤ q1.nid → (r.1, q.nid) ∈ g.rels
  youngest : ∀ y ∈ g.nodes, (∀ y1 ∈ g.nodes, y1.id = y.id → y1.nid ≤ y.nid) →
    ∃ p : String, ∀ q ∈ g.nodes, (y.nid, q.nid) ∈ g.rels → q.id = p ∧ q.nid ≤ y.nid

/-- A set of node identities that, with a node, holds every older stored node of
the same `id`. -/
def Graph.DeadClosed (g : Graph) (dead : List Nat) : Prop :=
  ∀ t ∈ g.nodes, t.nid ∈ dead → ∀ u ∈ g.nodes, u.id = t.id → u.nid ≤ t.nid → u.nid ∈ dead

/-! ## Scenario stores -/

/-- The store after `CreateTask` of task A (no parent; the generated identifier is "a"). -/
def storeA : Graph :=
  (TaskService.CreateTask Graph.empty ⟨"", "A", false, none⟩ "a" 0 none none).1

/-- The store after `CreateTask` of A and then of B with `parent_id` = A's identifier. -/
def storeAB : Graph :=
  (TaskService.CreateTask storeA ⟨"", "B", false, some "a"⟩ "b" 1 none none).1

/-- The store after two `CreateTask` calls that both supply the identifier "a". -/
def storeDup : Graph :=
  (TaskService.CreateTask
    (TaskService.CreateTask Graph.empty ⟨"a", "first", false, none⟩ "u1" 0 none none).1
    ⟨"a", "second", false, none⟩ "u2" 1 none none).1

/-- The nodes after `CREATE`: the new node and the old ones. -/
theorem mem_createNode_nodes (g : Graph) (pos : Nat) (id title : String) (completed : Bool)
    (t : Node) :
    t ∈ (g.createNode pos id title completed).nodes ↔
      t = ⟨g.next, id, title, completed⟩ ∨ t ∈ g.nodes := by
  have h : t ∈ g.nodes ↔ t ∈ g.nodes.take pos ∨ t ∈ g.nodes.drop pos := by
    rw [← List.mem_append, List.take_append_drop]
  simp only [Graph.createNode, List.mem_append, List.mem_cons, h]
  tauto

/-- The nodes after `CREATE` are the old nodes and the new one, in some order. -/
theorem createNode_nodes_perm (g : Graph) (pos : Nat) (id title : String) (completed : Bool) :
    (g.createNode pos id title completed).nodes.Perm (⟨g.next, id, title, completed⟩ :: g.nodes) := by
  have h : (g.nodes.take pos ++ (⟨g.next, id, title, completed⟩ : Node) :: g.nodes.drop pos).Perm
      (⟨g.next, id, title, completed⟩ :: (g.nodes.take pos ++ g.nodes.drop pos)) :=
    List.perm_middle
  simpa [Graph.createNode, List.take_append_drop] using h

/-- The nodes a `{id: $id}` pattern matches. -/
theorem mem_matchTask (g : Graph) (id : String) (t : Node) :
    t ∈ g.matchTask id ↔ t ∈ g.nodes ∧ t.id = id := by
  simp [Graph.matchTask]

/-- The parents of a node are the stored end nodes of its relationships. -/
theorem mem_parents (g : Graph) (t q : Node) :
    q ∈ g.parents t ↔ q ∈ g.nodes ∧ (t.nid, q.nid) ∈ g.rels := by
  simp only [Graph.parents, List.mem_flatMap, List.mem_filter, decide_eq_true_eq]
  constructor
  · rintro ⟨⟨a, b⟩, ⟨hr, ha⟩, hq, hb⟩
    simp only at ha hb
    subst ha; subst hb
    exact ⟨hq, hr⟩
  · rintro ⟨hq, hr⟩
    exact ⟨(t.nid, q.nid), ⟨hr, rfl⟩, hq, rfl⟩

/-- The relationships after the relationship `CREATE`: the old ones and one per
matched pair. -/
theorem mem_createRels_rels (g : Graph) (childID parentID : String) (r : Nat × Nat) :
    r ∈ (g.createRels childID parentID).rels ↔
      r ∈ g.rels ∨ ∃ c ∈ g.nodes, c.id = childID ∧ ∃ p ∈ g.nodes, p.id = parentID ∧
        r = (c.nid, p.nid) := by
  simp only [Graph.createRels, List.mem_append, List.mem_flatMap, List.mem_map, mem_matchTask]
  constructor
  · rintro (h | ⟨c, ⟨hc, hci⟩, p, ⟨hp, hpi⟩, rfl⟩)
    · exact Or.inl h
    · exact Or.inr ⟨c, hc, hci, p, hp, hpi, rfl⟩
  · rintro (h | ⟨c, hc, hci, p, hp, hpi, rfl⟩)
    · exact Or.inl h
    · exact Or.inr ⟨c, ⟨hc, hci⟩, p, ⟨hp, hpi⟩, rfl⟩

/-- Every node after `SET` comes from a node with the same identity and `id`. -/
theorem mem_setTask_nodes (g : Graph) (id title : String) (completed : Bool) (t : Node) :
    t ∈ (g.setTask id title completed).nodes →
      ∃ u ∈ g.nodes, u.nid = t.nid ∧ u.id = t.id := by
  simp only [Graph.setTask, List.mem_map]
  rintro ⟨u, hu, rfl⟩
  refine ⟨u, hu, ?_, ?_⟩ <;> by_cases h : u.id = id <;> simp [h]

/-- Every node is still there after `SET`, with the same identity and `id`. -/
theorem setTask_nodes_of_mem (g : Graph) (id title : String) (completed : Bool) (u : Node)
    (hu : u ∈ g.nodes) :
    ∃ t ∈ (g.setTask id title completed).nodes, t.nid = u.nid ∧ t.id = u.id := by
  refine ⟨if u.id = id then { u with title := title, completed := completed } else u, ?_, ?_, ?_⟩
  · simp only [Graph.setTask, List.mem_map]
    exact ⟨u, hu, rfl⟩
  · by_cases h : u.id = id <;> simp [h]
  · by_cases h : u.id = id <;> simp [h]

/-- The nodes that `DETACH DELETE` leaves. -/
theorem mem_detachDelete_nodes (g : Graph) (dead : List Nat) (t : Node) :
    t ∈ (g.detachDelete dead).nodes ↔ t ∈ g.nodes ∧ t.nid ∉ dead := by
  simp [Graph.detachDelete]

/-- The relationships that `DETACH DELETE` leaves. -/
theorem mem_detachDelete_rels (g : Graph) (dead : List Nat) (r : Nat × Nat) :
    r ∈ (g.detachDelete dead).rels ↔ r ∈ g.rels ∧ r.1 ∉ dead ∧ r.2 ∉ dead := by
  simp [Graph.detachDelete]


/-- The empty store satisfies the invariant. -/
theorem inv_empty : Graph.empty.Inv := by
  constructor <;> simp [Graph.empty]

/-- After `CREATE` node identities still belong to one node each. -/
theorem createNode_nid_inj {g : Graph} (h : g.Inv) (pos : Nat) (id title : String)
    (completed : Bool) :
    ∀ t ∈ (g.createNode pos id title completed).nodes,
      ∀ u ∈ (g.createNode pos id title completed).nodes, t.nid = u.nid → t = u := by
  intro t ht u hu htu
  rcases (mem_createNode_nodes g pos id title completed t).1 ht with rfl | ht
  · rcases (mem_createNode_nodes g pos id title completed u).1 hu with rfl | hu
    · rfl
    · have := h.nid_lt u hu
      simp only at htu
      omega
  · rcases (mem_createNode_nodes g pos id title completed u).1 hu with rfl | hu
    · have := h.nid_lt t ht
      simp only at htu
      omega
    · exact h.nid_inj t ht u hu htu

/-- The node `CREATE` with a non-empty `id` keeps the invariant. -/
theorem inv_createNode {g : Graph} (h : g.Inv) (pos : Nat) (id title : String)
    (completed : Bool) (hid : id ≠ "") : (g.createNode pos id title completed).Inv := by
  have hrels : (g.createNode pos id title completed).rels = g.rels := rfl
  have hnext : (g.createNode pos id title completed).next = g.next + 1 := rfl
  constructor
  · intro t ht
    rw [hnext]
    rcases (mem_createNode_nodes g pos id title completed t).1 ht with rfl | ht
    · exact Nat.lt_succ_self _
    · exact Nat.lt_succ_of_lt (h.nid_lt t ht)
  · exact createNode_nid_inj h pos id title completed
  · intro r hr
    rw [hrels] at hr
    rw [hnext]
    have := h.rel_lt r hr
    omega
  · intro t ht
    rcases (mem_createNode_nodes g pos id title completed t).1 ht with rfl | ht
    · exact hid
    · exact h.id_ne t ht
  · intro r hr q1 hq1 hq1r q hq hqid hle
    rw [hrels] at hr ⊢
    have hrl := h.rel_lt r hr
    rcases (mem_createNode_nodes g pos id title completed q1).1 hq1 with rfl | hq1
    · simp only at hq1r
      omega
    · rcases (mem_createNode_nodes g pos id title completed q).1 hq with rfl | hq
      · have := h.nid_lt q1 hq1
        simp only at hle
        omega
      · exact h.older r hr q1 hq1 hq1r q hq hqid hle
  · intro y hy hyoung
    rw [hrels]
    rcases (mem_createNode_nodes g pos id title completed y).1 hy with rfl | hy
    · refine ⟨"", ?_⟩
      intro q _ hr
      have := (h.rel_lt _ hr).1
      simp only at this
      omega
    · obtain ⟨p, hp⟩ := h.youngest y hy (fun y1 hy1 =>
        hyoung y1 ((mem_createNode_nodes g pos id title completed y1).2 (Or.inr hy1)))
      refine ⟨p, ?_⟩
      intro q hq hr
      rcases (mem_createNode_nodes g pos id title completed q).1 hq with rfl | hq
      · have := (h.rel_lt _ hr).2
        simp only at this
        omega
      · exact hp q hq hr

/-- The relationship `CREATE` keeps the invariant when the child `id` is that of the
node created last, which has no relationship yet. -/
theorem inv_createRels {g : Graph} (h : g.Inv) (childID parentID : String) (n : Node)
    (hn : n ∈ g.nodes) (hnid : n.id = childID) (hmax : ∀ t ∈ g.nodes, t.nid ≤ n.nid)
    (hnew : ∀ r ∈ g.rels, r.1 ≠ n.nid) : (g.createRels childID parentID).Inv := by
  have hnodes : (g.createRels childID parentID).nodes = g.nodes := rfl
  have hnext : (g.createRels childID parentID).next = g.next := rfl
  constructor
  · intro t ht
    exact h.nid_lt t ht
  · intro t ht u hu htu
    exact h.nid_inj t ht u hu htu
  · intro r hr
    rw [hnext]
    rcases (mem_createRels_rels g childID parentID r).1 hr with hr | ⟨c, hc, _, p, hp, _, rfl⟩
    · exact h.rel_lt r hr
    · exact ⟨h.nid_lt c hc, h.nid_lt p hp⟩
  · intro t ht
    exact h.id_ne t ht
  · intro r hr q1 hq1 hq1r q hq hqid hle
    rw [hnodes] at hq1 hq
    rcases (mem_createRels_rels g childID parentID r).1 hr with hr | ⟨c, hc, hci, p, hp, hpi, rfl⟩
    · exact (mem_createRels_rels g childID parentID _).2
        (Or.inl (h.older r hr q1 hq1 hq1r q hq hqid hle))
    · have hq1p : q1 = p := h.nid_inj q1 hq1 p hp hq1r
      subst hq1p
      exact (mem_createRels_rels g childID parentID _).2
        (Or.inr ⟨c, hc, hci, q, hq, hqid.trans hpi, rfl⟩)
  · intro y hy hyoung
    rw [hnodes] at hy hyoung
    by_cases hyid : y.id = childID
    · have hyn : y = n := by
        have h1 : n.nid ≤ y.nid := hyoung n hn (hnid.trans hyid.symm)
        have h2 : y.nid ≤ n.nid := hmax y hy
        exact h.nid_inj y hy n hn (Nat.le_antisymm h2 h1)
      subst hyn
      refine ⟨parentID, ?_⟩
      intro q hq hr
      rcases (mem_createRels_rels g childID parentID _).1 hr with hr | ⟨c, _, _, p, hp, hpi, hcp⟩
      · exact absurd rfl (hnew _ hr)
      · simp only [Prod.mk.injEq] at hcp
        have hqp : q = p := h.nid_inj q hq p hp hcp.2
        subst hqp
        exact ⟨hpi, hmax q hq⟩
    · obtain ⟨p, hp⟩ := h.youngest y hy hyoung
      refine ⟨p, ?_⟩
      intro q hq hr
      rcases (mem_createRels_rels g childID parentID _).1 hr with hr | ⟨c, hc, hci, _, _, _, hcp⟩
      · exact hp q hq hr
      · simp only [Prod.mk.injEq] at hcp
        have hyc : y = c := h.nid_inj y hy c hc hcp.1
        subst hyc
        exact absurd hci hyid

/-- The statement `SET` keeps the invariant. -/
theorem inv_setTask {g : Graph} (h : g.Inv) (id title : String) (completed : Bool) :
    (g.setTask id title completed).Inv := by
  have hrels : (g.setTask id title completed).rels = g.rels := rfl
  have hnext : (g.setTask id title completed).next = g.next := rfl
  constructor
  · intro t ht
    obtain ⟨u, hu, hn, _⟩ := mem_setTask_nodes g id title completed t ht
    rw [hnext, ← hn]
    exact h.nid_lt u hu
  · intro t ht u hu htu
    simp only [Graph.setTask, List.mem_map] at ht hu
    obtain ⟨t0, ht0, rfl⟩ := ht
    obtain ⟨u0, hu0, rfl⟩ := hu
    have : t0 = u0 := by
      apply h.nid_inj t0 ht0 u0 hu0
      by_cases h1 : t0.id = id <;> by_cases h2 : u0.id = id <;> simp [h1, h2] at htu <;> exact htu
    rw [this]
  · intro r hr
    exact h.rel_lt r hr
  · intro t ht
    obtain ⟨u, hu, _, hi⟩ := mem_setTask_nodes g id title completed t ht
    rw [← hi]
    exact h.id_ne u hu
  · intro r hr q1 hq1 hq1r q hq hqid hle
    obtain ⟨u1, hu1, hn1, hi1⟩ := mem_setTask_nodes g id title completed q1 hq1
    obtain ⟨u, hu, hn, hi⟩ := mem_setTask_nodes g id title completed q hq
    rw [hrels] at hr ⊢
    rw [← hn]
    apply h.older r hr u1 hu1 (hn1.trans hq1r) u hu
    · rw [hi, hi1, hqid]
    · rw [hn, hn1]
      exact hle
  · intro y hy hyoung
    obtain ⟨u, hu, hn, hi⟩ := mem_setTask_nodes g id title completed y hy
    have hyu : ∀ y1 ∈ g.nodes, y1.id = u.id → y1.nid ≤ u.nid := by
      intro y1 hy1 hid1
      obtain ⟨t1, ht1, htn, hti⟩ := setTask_nodes_of_mem g id title completed y1 hy1
      have := hyoung t1 ht1 (by rw [hti, hid1, hi])
      rw [htn] at this
      rw [hn]
      exact this
    obtain ⟨p, hp⟩ := h.youngest u hu hyu
    refine ⟨p, ?_⟩
    intro q hq hr
    obtain ⟨v, hv, hvn, hvi⟩ := mem_setTask_nodes g id title completed q hq
    rw [hrels, ← hn, ← hvn] at hr
    have := hp v hv hr
    rw [← hvi, ← hvn, ← hn]
    exact this


/-- The clause `DETACH DELETE` keeps the invariant when the deleted set holds, with a
node, the older nodes of the same `id`. -/
theorem inv_detachDelete {g : Graph} (h : g.Inv) (dead : List Nat) (hd : g.DeadClosed dead) :
    (g.detachDelete dead).Inv := by
  have hnext : (g.detachDelete dead).next = g.next := rfl
  constructor
  · intro t ht
    exact h.nid_lt t ((mem_detachDelete_nodes g dead t).1 ht).1
  · intro t ht u hu htu
    exact h.nid_inj t ((mem_detachDelete_nodes g dead t).1 ht).1 u
      ((mem_detachDelete_nodes g dead u).1 hu).1 htu
  · intro r hr
    exact h.rel_lt r ((mem_detachDelete_rels g dead r).1 hr).1
  · intro t ht
    exact h.id_ne t ((mem_detachDelete_nodes g dead t).1 ht).1
  · intro r hr q1 hq1 hq1r q hq hqid hle
    obtain ⟨hr0, hr1, _⟩ := (mem_detachDelete_rels g dead r).1 hr
    obtain ⟨hq10, _⟩ := (mem_detachDelete_nodes g dead q1).1 hq1
    obtain ⟨hq0, hqd⟩ := (mem_detachDelete_nodes g dead q).1 hq
    exact (mem_detachDelete_rels g dead _).2
      ⟨h.older r hr0 q1 hq10 hq1r q hq0 hqid hle, hr1, hqd⟩
  · intro y hy hyoung
    obtain ⟨hy0, hyd⟩ := (mem_detachDelete_nodes g dead y).1 hy
    have hyg : ∀ y1 ∈ g.nodes, y1.id = y.id → y1.nid ≤ y.nid := by
      intro y1 hy1 hid1
      by_cases hdead : y1.nid ∈ dead
      · by_contra hlt
        exact hyd (hd y1 hy1 hdead y hy0 hid1.symm (by omega))
      · exact hyoung y1 ((mem_detachDelete_nodes g dead y1).2 ⟨hy1, hdead⟩) hid1
    obtain ⟨p, hp⟩ := h.youngest y hy0 hyg
    refine ⟨p, ?_⟩
    intro q hq hr
    exact hp q ((mem_detachDelete_nodes g dead q).1 hq).1 ((mem_detachDelete_rels g dead _).1 hr).1

/-- The identities the first `DeleteTask` statement deletes. -/
theorem mem_hasParentTargets (g : Graph) (id : String) (k : Nat) :
    k ∈ ((g.matchTask id).flatMap g.parents).map (fun child => child.nid) ↔
      ∃ t ∈ g.nodes, t.id = id ∧ ∃ q ∈ g.nodes, (t.nid, q.nid) ∈ g.rels ∧ q.nid = k := by
  simp only [List.mem_map, List.mem_flatMap, mem_matchTask, mem_parents]
  constructor
  · rintro ⟨q, ⟨t, ⟨ht, hti⟩, hq, hr⟩, rfl⟩
    exact ⟨t, ht, hti, q, hq, hr, rfl⟩
  · rintro ⟨t, ht, hti, q, hq, hr, rfl⟩
    exact ⟨q, ⟨t, ⟨ht, hti⟩, hq, hr⟩, rfl⟩

/-- The identities the second `DeleteTask` statement deletes. -/
theorem mem_selfTargets (g : Graph) (id : String) (k : Nat) :
    k ∈ (g.matchTask id).map (fun t => t.nid) ↔ ∃ t ∈ g.nodes, t.id = id ∧ t.nid = k := by
  simp only [List.mem_map, mem_matchTask]
  constructor
  · rintro ⟨t, ⟨ht, hti⟩, rfl⟩
    exact ⟨t, ht, hti, rfl⟩
  · rintro ⟨t, ht, hti, rfl⟩
    exact ⟨t, ⟨ht, hti⟩, rfl⟩

/-- The first deleted set holds, with a node, the older nodes of the same `id`. -/
theorem deadClosed_hasParentTargets {g : Graph} (h : g.Inv) (id : String) :
    g.DeadClosed (((g.matchTask id).flatMap g.parents).map (fun child => child.nid)) := by
  intro t ht hdead u hu huid hle
  obtain ⟨s, hs, hsi, q, hq, hr, hqt⟩ := (mem_hasParentTargets g id t.nid).1 hdead
  have hqt2 : q = t := h.nid_inj q hq t ht hqt
  subst hqt2
  exact (mem_hasParentTargets g id u.nid).2
    ⟨s, hs, hsi, u, hu, h.older (s.nid, q.nid) hr q hq rfl u hu huid hle, rfl⟩

/-- The second deleted set holds, with a node, the older nodes of the same `id`. -/
theorem deadClosed_selfTargets {g : Graph} (h : g.Inv) (id : String) :
    g.DeadClosed ((g.matchTask id).map (fun t => t.nid)) := by
  intro t ht hdead u hu huid _
  obtain ⟨s, hs, hsi, hst⟩ := (mem_selfTargets g id t.nid).1 hdead
  have hst2 : s = t := h.nid_inj s hs t ht hst
  subst hst2
  exact (mem_selfTargets g id u.nid).2 ⟨u, hu, huid.trans hsi, rfl⟩

/-- The identifier `CreateTask` assigns is non-empty when the generated one is. -/
theorem assignID_ne_empty (task : Task) (uuid : String) (hu : uuid ≠ "") :
    (TaskService.assignID task uuid).ID ≠ "" := by
  unfold TaskService.assignID
  split
  · exact hu
  · assumption

/-- The two statements of `CreateTask` together keep the invariant. -/
theorem inv_createNode_createRels {g : Graph} (h : g.Inv) (pos : Nat) (id title : String)
    (completed : Bool) (hid : id ≠ "") (parentID : String) :
    ((g.createNode pos id title completed).createRels id parentID).Inv := by
  apply inv_createRels (inv_createNode h pos id title completed hid) id parentID
    ⟨g.next, id, title, completed⟩
  · exact (mem_createNode_nodes g pos id title completed _).2 (Or.inl rfl)
  · rfl
  · intro t ht
    rcases (mem_createNode_nodes g pos id title completed t).1 ht with rfl | ht
    · exact Nat.le_refl _
    · exact Nat.le_of_lt (h.nid_lt t ht)
  · intro r hr
    have := (h.rel_lt r hr).1
    simp only
    omega

/-- The method `CreateTask` keeps the invariant, whatever its transactions do. -/
theorem inv_CreateTask {g : Graph} (h : g.Inv) (task : Task) (uuid : String) (pos : Nat)
    (txErr1 txErr2 : Option String) (hu : uuid ≠ "") :
    (TaskService.CreateTask g task uuid pos txErr1 txErr2).1.Inv := by
  have hid := assignID_ne_empty task uuid hu
  unfold TaskService.CreateTask
  cases txErr1 with
  | some e => exact h
  | none =>
    simp only
    cases hp : (TaskService.assignID task uuid).ParentID with
    | none => exact inv_createNode h pos _ _ _ hid
    | some parentID =>
      simp only
      split
      · cases txErr2 with
        | some e => exact inv_createNode h pos _ _ _ hid
        | none => exact inv_createNode_createRels h pos _ _ _ hid parentID
      · exact inv_createNode h pos _ _ _ hid

/-- The method `UpdateTask` keeps the invariant. -/
theorem inv_UpdateTask {g : Graph} (h : g.Inv) (taskID title : String) (completed : Bool)
    (txErr : Option String) : (TaskService.UpdateTask g taskID title completed txErr).1.Inv := by
  cases txErr with
  | some e => exact h
  | none => exact inv_setTask h taskID title completed

/-- The method `DeleteTask` keeps the invariant. -/
theorem inv_DeleteTask {g : Graph} (h : g.Inv) (taskID : String) (txErr : Option String) :
    (TaskService.DeleteTask g taskID txErr).1.Inv := by
  cases txErr with
  | some e => exact h
  | none =>
    have h1 : (g.deleteHasParentTargets taskID).Inv :=
      inv_detachDelete h _ (deadClosed_hasParentTargets h taskID)
    exact inv_detachDelete h1 _ (deadClosed_selfTargets h1 taskID)

/-- Every reachable store satisfies the invariant. -/
theorem Reachable.inv {g : Graph} (h : Reachable g) : g.Inv := by
  induction h with
  | empty => exact inv_empty
  | step _ hs ih =>
    cases hs with
    | create task uuid pos txErr1 txErr2 hu _ => exact inv_CreateTask ih task uuid pos txErr1 txErr2 hu
    | update taskID title completed txErr => exact inv_UpdateTask ih taskID title completed txErr
    | delete taskID txErr => exact inv_DeleteTask ih taskID txErr


/-- An `id` that matches no node is not among the stored `id`s. -/
theorem not_mem_ids_of_matchTask_nil {g : Graph} {id : String} (h : g.matchTask id = []) :
    id ∉ g.nodes.map (fun t => t.id) := by
  intro hmem
  obtain ⟨t, ht, hti⟩ := List.mem_map.1 hmem
  have : t ∈ g.matchTask id := (mem_matchTask g id t).2 ⟨ht, hti⟩
  rw [h] at this
  exact List.not_mem_nil t this

/-- The node `CREATE` with an `id` no node carries keeps the `id`s unique. -/
theorem uniqueIDs_createNode {g : Graph} (h : g.UniqueIDs) (pos : Nat) (id title : String)
    (completed : Bool) (hnew : g.matchTask id = []) :
    (g.createNode pos id title completed).UniqueIDs := by
  unfold Graph.UniqueIDs
  have hperm := (createNode_nodes_perm g pos id title completed).map (fun t => t.id)
  rw [hperm.nodup_iff, List.map_cons, List.nodup_cons]
  exact ⟨not_mem_ids_of_matchTask_nil hnew, h⟩

/-- The statement `SET` keeps the `id`s unique. -/
theorem uniqueIDs_setTask {g : Graph} (h : g.UniqueIDs) (id title : String) (completed : Bool) :
    (g.setTask id title completed).UniqueIDs := by
  unfold Graph.UniqueIDs at h ⊢
  have : (g.setTask id title completed).nodes.map (fun t => t.id) = g.nodes.map (fun t => t.id) := by
    simp only [Graph.setTask, List.map_map]
    apply List.map_congr_left
    intro t _
    by_cases ht : t.id = id <;> simp [ht]
  rw [this]
  exact h

/-- The clause `DETACH DELETE` keeps the `id`s unique. -/
theorem uniqueIDs_detachDelete {g : Graph} (h : g.UniqueIDs) (dead : List Nat) :
    (g.detachDelete dead).UniqueIDs := by
  unfold Graph.UniqueIDs at h ⊢
  exact h.sublist (List.Sublist.map _ (List.filter_sublist _))

/-- The method `CreateTask` keeps the `id`s unique when the task gets a new one. -/
theorem uniqueIDs_CreateTask {g : Graph} (h : g.UniqueIDs) (task : Task) (uuid : String)
    (pos : Nat) (txErr1 txErr2 : Option String)
    (hnew : g.matchTask (TaskService.assignID task uuid).ID = []) :
    (TaskService.CreateTask g task uuid pos txErr1 txErr2).1.UniqueIDs := by
  have h1 := uniqueIDs_createNode h pos _ (TaskService.assignID task uuid).Title
    (TaskService.assignID task uuid).Completed hnew
  unfold TaskService.CreateTask
  cases txErr1 with
  | some e => exact h
  | none =>
    simp only
    cases hp : (TaskService.assignID task uuid).ParentID with
    | none => exact h1
    | some parentID =>
      simp only
      split
      · cases txErr2 with
        | some e => exact h1
        | none => exact h1
      · exact h1

/-- The method `UpdateTask` keeps the `id`s unique. -/
theorem uniqueIDs_UpdateTask {g : Graph} (h : g.UniqueIDs) (taskID title : String)
    (completed : Bool) (txErr : Option String) :
    (TaskService.UpdateTask g taskID title completed txErr).1.UniqueIDs := by
  cases txErr with
  | some e => exact h
  | none => exact uniqueIDs_setTask h taskID title completed

/-- The method `DeleteTask` keeps the `id`s unique. -/
theorem uniqueIDs_DeleteTask {g : Graph} (h : g.UniqueIDs) (taskID : String)
    (txErr : Option String) : (TaskService.DeleteTask g taskID txErr).1.UniqueIDs := by
  cases txErr with
  | some e => exact h
  | none => exact uniqueIDs_detachDelete (uniqueIDs_detachDelete h _) _


/-- The method `GetTaskByID` returns the assertion error whenever its read transaction
succeeds. -/
theorem GetTaskByID_assertion_fails (g : Graph) (taskID : String) (resErr : Option String) :
    TaskService.GetTaskByID g taskID none TaskService.runValueIsResult resErr
      = Except.error (Fault.error "failed to assert result to neo4j.Result") := rfl

/-- Reading, with `getTaskByID`, an `id` that matches one node without parents gives
that node with no `ParentID`. -/
theorem Main_getTaskByID_no_parent {g : Graph} {taskID : String} {t : Node}
    (hm : g.matchTask taskID = [t]) (hp : g.parents t = []) :
    Main.getTaskByID g taskID none
      = Reply.sent 200 (Body.task ⟨t.id, t.title, t.completed, none⟩) := by
  have hq : g.queryByID taskID
      = [[Value.str t.id, Value.str t.title, Value.bool t.completed, Value.null]] := by
    simp [Graph.queryByID, hm, Graph.rowsOf, hp]
  simp only [Main.getTaskByID, hq]
  rfl

/-- Reading, with `getTaskByID`, an `id` that matches one node with parents gives that
node with the `id` of its first parent. -/
theorem Main_getTaskByID_parent {g : Graph} {taskID : String} {t q : Node} {qs : List Node}
    (hm : g.matchTask taskID = [t]) (hp : g.parents t = q :: qs) :
    Main.getTaskByID g taskID none
      = Reply.sent 200 (Body.task ⟨t.id, t.title, t.completed, some q.id⟩) := by
  have hq : g.queryByID taskID
      = [Value.str t.id, Value.str t.title, Value.bool t.completed, Value.str q.id] ::
        qs.map (fun q => [Value.str t.id, Value.str t.title, Value.bool t.completed, Value.str q.id]) := by
    simp [Graph.queryByID, hm, Graph.rowsOf, hp]
  simp only [Main.getTaskByID, hq]
  rfl

/-- After `CREATE` with an `id` no node carried, the `id` matches the new node only. -/
theorem matchTask_createNode_new {g : Graph} (pos : Nat) (id title : String) (completed : Bool)
    (hnew : g.matchTask id = []) :
    (g.createNode pos id title completed).matchTask id = [⟨g.next, id, title, completed⟩] := by
  have hall : ∀ t ∈ g.nodes, ¬ t.id = id := by
    intro t ht hid
    have : t ∈ g.matchTask id := (mem_matchTask g id t).2 ⟨ht, hid⟩
    rw [hnew] at this
    exact List.not_mem_nil t this
  have h1 : (g.nodes.take pos).filter (fun t => decide (t.id = id)) = [] := by
    apply List.filter_eq_nil_iff.2
    intro t ht
    simpa using hall t (List.mem_of_mem_take ht)
  have h2 : (g.nodes.drop pos).filter (fun t => decide (t.id = id)) = [] := by
    apply List.filter_eq_nil_iff.2
    intro t ht
    simpa using hall t (List.mem_of_mem_drop ht)
  simp [Graph.matchTask, Graph.createNode, List.filter_append, List.filter_cons, h1, h2]

/-- After `CREATE` any other `id` matches what it matched before. -/
theorem matchTask_createNode_other (g : Graph) (pos : Nat) (id title : String)
    (completed : Bool) (id1 : String) (hne : id ≠ id1) :
    (g.createNode pos id title completed).matchTask id1 = g.matchTask id1 := by
  have h : g.nodes.filter (fun t => decide (t.id = id1))
      = (g.nodes.take pos).filter (fun t => decide (t.id = id1))
        ++ (g.nodes.drop pos).filter (fun t => decide (t.id = id1)) := by
    rw [← List.filter_append, List.take_append_drop]
  simp [Graph.matchTask, Graph.createNode, List.filter_append, List.filter_cons, hne, h]

/-- A node just created has no parents. -/
theorem parents_createNode_new {g : Graph} (h : g.Inv) (pos : Nat) (id title : String)
    (completed : Bool) :
    (g.createNode pos id title completed).parents ⟨g.next, id, title, completed⟩ = [] := by
  apply List.eq_nil_iff_forall_not_mem.2
  intro q hq
  have hr := ((mem_parents _ _ q).1 hq).2
  have := (h.rel_lt _ hr).1
  simp only at this
  omega

/-- The relationship `CREATE` changes nothing when the parent `id` matches no node. -/
theorem createRels_no_parent {g : Graph} (childID parentID : String)
    (hm : g.matchTask parentID = []) : g.createRels childID parentID = g := by
  have h : ((g.matchTask childID).flatMap
      (fun c => (g.matchTask parentID).map (fun p => (c.nid, p.nid)))) = [] := by
    apply List.eq_nil_iff_forall_not_mem.2
    intro r hr
    obtain ⟨c, _, hc⟩ := List.mem_flatMap.1 hr
    rw [hm] at hc
    exact absurd hc (List.not_mem_nil r)
  simp only [Graph.createRels, h, List.append_nil]

/-- The store after `createTask` of `src/main.go` is the store after
`TaskService.CreateTask` of the same task with no identifier and `Completed` false. -/
theorem Main_createTask_store (g : Graph) (task : Task) (uuid : String) (pos : Nat)
    (txErr : Option String) :
    (Main.createTask g (some task) uuid pos txErr).1
      = (TaskService.CreateTask g { task with ID := "", Completed := false } uuid pos txErr none).1 := by
  cases txErr with
  | some e => rfl
  | none =>
    simp only [Main.createTask, TaskService.CreateTask, TaskService.assignID, if_true]


/-- Every store a handler of `src/main.go` leaves is reachable when the store it
started from is (the generated identifier non-empty and new). -/
theorem Reachable.main {g : Graph} (h : Reachable g) :
    (∀ (payload : Option Task) (uuid : String) (pos : Nat) (txErr : Option String),
      uuid ≠ "" → g.matchTask uuid = [] →
      Reachable (Main.createTask g payload uuid pos txErr).1) ∧
    (∀ (taskID : String) (payload : Option (String × Bool)) (txErr : Option String),
      Reachable (Main.updateTask g taskID payload txErr).1) ∧
    (∀ (taskID : String) (txErr : Option String),
      Reachable (Main.deleteTask g taskID txErr).1) := by
  refine ⟨?_, ?_, ?_⟩
  · intro payload uuid pos txErr hu hfresh
    cases payload with
    | none => exact h
    | some task =>
      rw [Main_createTask_store]
      exact Reachable.step h (Step.create g _ uuid pos txErr none hu hfresh)
  · intro taskID payload txErr
    cases payload with
    | none => exact h
    | some updates =>
      have hs : (Main.updateTask g taskID (some updates) txErr).1
          = (TaskService.UpdateTask g taskID updates.1 updates.2 txErr).1 := by
        cases txErr <;> rfl
      rw [hs]
      exact Reachable.step h (Step.update g taskID updates.1 updates.2 txErr)
  · intro taskID txErr
    have hs : (Main.deleteTask g taskID txErr).1 = (TaskService.DeleteTask g taskID txErr).1 := by
      cases txErr <;> rfl
    rw [hs]
    exact Reachable.step h (Step.delete g taskID txErr)

/-! ## The claims -/

/-- C1 (evaluation at the failing input): with B created as a child of A (`GetTasks`
and `getTaskByID` report B with parent "a"), `DeleteTask` of A succeeds and removes A
only: `GetTasks` still lists B, now without a parent, and after `deleteTask` of
`src/main.go` the reads `getTaskByID` and `getTasks` still return B. -/
theorem C1_delete_parent_keeps_child :
    TaskService.GetTasks storeAB none
        = Except.ok [⟨"a", "A", false, none⟩, ⟨"b", "B", false, some "a"⟩] ∧
    Main.getTaskByID storeAB "b" none
        = Reply.sent 200 (Body.task ⟨"b", "B", false, some "a"⟩) ∧
    (TaskService.DeleteTask storeAB "a" none).2 = Except.ok () ∧
    TaskService.GetTasks (TaskService.DeleteTask storeAB "a" none).1 none
        = Except.ok [⟨"b", "B", false, none⟩] ∧
    Main.getTaskByID (Main.deleteTask storeAB "a" none).1 "b" none
        = Reply.sent 200 (Body.task ⟨"b", "B", false, none⟩) ∧
    Main.getTasks (Main.deleteTask storeAB "a" none).1 none
        = Reply.sent 200 (Body.tasks [⟨"b", "B", false, none⟩]) := by
  decide

/-- C3 (what the code does): `TaskController.GetTaskByID` never answers 404, and for
an identifier that matches no task node it answers 500 whenever it answers; on the
empty store the reply is 500 with the error of the failed type assertion, where
`getTaskByID` of `src/main.go` answers 404. -/
theorem C3_missing_task_answers_500 :
    (∀ (g : Graph) (taskID : String) (txErr : Option String) (isResult : Bool)
        (resErr : Option String),
        (TaskController.GetTaskByID g taskID txErr isResult resErr).status ≠ some 404) ∧
    (∀ (g : Graph) (taskID : String) (txErr : Option String) (isResult : Bool)
        (resErr : Option String), g.matchTask taskID = [] →
        (TaskController.GetTaskByID g taskID txErr isResult resErr).status = some 500) ∧
    TaskController.GetTaskByID Graph.empty "x" none TaskService.runValueIsResult none
        = Reply.sent 500 (Body.text "failed to assert result to neo4j.Result") ∧
    Main.getTaskByID Graph.empty "x" none = Reply.sent 404 (Body.text "Task not found") := by
  refine ⟨?_, ?_, by decide, by decide⟩
  · intro g taskID txErr isResult resErr
    unfold TaskController.GetTaskByID TaskService.GetTaskByID
    cases txErr <;> cases isResult <;> simp [Reply.status]
    cases hq : g.queryByID taskID with
    | nil => cases resErr <;> simp [Reply.status]
    | cons record rest =>
      cases hr : recordToTask record with
      | error f => cases f <;> simp [Reply.status, hr]
      | ok t => simp [Reply.status, hr]
  · intro g taskID txErr isResult resErr hm
    unfold TaskController.GetTaskByID TaskService.GetTaskByID
    have hq : g.queryByID taskID = [] := by simp [Graph.queryByID, hm]
    cases txErr <;> cases isResult <;> cases resErr <;> simp [Reply.status, hq]

/-- C4 (evaluation at the failing input): `TaskService.CreateTask` persists and returns
the `completed` value the caller supplied; a task posted with `completed` = true is
stored and answered as completed, while `createTask` of `src/main.go` stores it as
not completed. -/
theorem C4_service_create_keeps_completed :
    (∀ (g : Graph) (task : Task) (uuid : String) (pos : Nat) (txErr2 : Option String),
      (TaskService.CreateTask g task uuid pos none txErr2).2
          = Except.ok (TaskService.assignID task uuid) ∧
      (TaskService.assignID task uuid).Completed = task.Completed) ∧
    TaskController.CreateTask Graph.empty (some ⟨"", "t", true, none⟩) "u" 0 none none
      = (⟨[⟨0, "u", "t", true⟩], [], 1⟩, Reply.sent 201 (Body.task ⟨"u", "t", true, none⟩)) ∧
    Main.createTask Graph.empty (some ⟨"", "t", true, none⟩) "u" 0 none
      = (⟨[⟨0, "u", "t", false⟩], [], 1⟩, Reply.sent 201 (Body.task ⟨"u", "t", false, none⟩)) := by
  refine ⟨?_, by decide, by decide⟩
  intro g task uuid pos txErr2
  constructor
  · simp [TaskService.CreateTask]
  · unfold TaskService.assignID
    split <;> rfl

/-- C6 (evaluation at the failing input): when the write transaction that attaches the
has-parent relationship fails, `TaskService.CreateTask` still returns the task and no
error, and the node stays without a relationship; `createTask` of `src/main.go`
answers 500 there, and the other four service operations return the error of a
failed transaction. -/
theorem C6_create_drops_relationship_error :
    (∀ (g : Graph) (task : Task) (uuid : String) (pos : Nat) (e : String),
      (TaskService.CreateTask g task uuid pos none (some e)).2
          = Except.ok (TaskService.assignID task uuid)) ∧
    TaskService.CreateTask storeA ⟨"", "B", false, some "a"⟩ "b" 1 none (some "connection lost")
      = (⟨[⟨0, "a", "A", false⟩, ⟨1, "b", "B", false⟩], [], 2⟩,
          Except.ok ⟨"b", "B", false, some "a"⟩) ∧
    Main.createTask storeA (some ⟨"", "B", false, some "a"⟩) "b" 1 (some "connection lost")
      = (storeA, Reply.sent 500 (Body.text "connection lost")) ∧
    (∀ (g : Graph) (e : String), TaskService.GetTasks g (some e) = Except.error (Fault.error e)) ∧
    (∀ (g : Graph) (taskID : String) (isResult : Bool) (resErr : Option String) (e : String),
      TaskService.GetTaskByID g taskID (some e) isResult resErr = Except.error (Fault.error e)) ∧
    (∀ (g : Graph) (task : Task) (uuid : String) (pos : Nat) (txErr2 : Option String) (e : String),
      TaskService.CreateTask g task uuid pos (some e) txErr2 = (g, Except.error (Fault.error e))) ∧
    (∀ (g : Graph) (taskID title : String) (completed : Bool) (e : String),
      TaskService.UpdateTask g taskID title completed (some e) = (g, Except.error (Fault.error e))) ∧
    (∀ (g : Graph) (taskID : String) (e : String),
      TaskService.DeleteTask g taskID (some e) = (g, Except.error (Fault.error e))) := by
  refine ⟨?_, by decide, by decide, ?_, ?_, ?_, ?_, ?_⟩
  · intro g task uuid pos e
    simp [TaskService.CreateTask]
  · intro g e; rfl
  · intro g taskID isResult resErr e; rfl
  · intro g task uuid pos txErr2 e; rfl
  · intro g taskID title completed e; rfl
  · intro g taskID e; rfl

/-- C7 (counterexample): on a record whose `id` value is an integer the mapping
panics; it returns neither a task nor an error. -/
theorem C7_recordToTask_panics_on_int_id :
    recordToTask [Value.int 7, Value.str "t", Value.bool false, Value.null]
      = Except.error (Fault.panic "interface conversion: interface is not string") := by
  decide

/-- C7 (amended): on a record of four values the mapping returns a task exactly when
the first two values are strings, the third is a boolean and the fourth is null or a
string, and then the task carries these values, with `ParentID` set exactly when the
fourth is not null; it never returns an error value, and on every other record it
panics. -/
theorem C7_recordToTask_typed_or_panic (v0 v1 v2 v3 : Value) :
    (∀ t : Task, recordToTask [v0, v1, v2, v3] = Except.ok t ↔
      (v0 = Value.str t.ID ∧ v1 = Value.str t.Title ∧ v2 = Value.bool t.Completed ∧
        ((v3 = Value.null ∧ t.ParentID = none) ∨
          ∃ p : String, v3 = Value.str p ∧ t.ParentID = some p))) ∧
    (∀ msg : String, recordToTask [v0, v1, v2, v3] ≠ Except.error (Fault.error msg)) ∧
    ((∀ t : Task, recordToTask [v0, v1, v2, v3] ≠ Except.ok t) →
      ∃ msg : String, recordToTask [v0, v1, v2, v3] = Except.error (Fault.panic msg)) := by
  have hnoerr : ∀ msg : String,
      recordToTask [v0, v1, v2, v3] ≠ Except.error (Fault.error msg) := by
    intro msg
    cases v0 <;> cases v1 <;> cases v2 <;> cases v3 <;>
      simp [recordToTask, valueAt, assertString, assertBool, bind, Except.bind, pure, Except.pure]
  refine ⟨?_, hnoerr, ?_⟩
  · rintro ⟨id, title, completed, parent⟩
    cases v0 <;> cases v1 <;> cases v2 <;> cases v3 <;>
      simp [recordToTask, valueAt, assertString, assertBool, bind, Except.bind, pure, Except.pure] <;>
      (intros; exact eq_comm)
  · intro hno
    cases h : recordToTask [v0, v1, v2, v3] with
    | ok t => exact absurd h (hno t)
    | error f =>
      cases f with
      | error msg => exact absurd h (hnoerr msg)
      | panic msg => exact ⟨msg, rfl⟩


/-- C8: `UpdateTask` whose transaction does not fail returns no error; afterwards every
task node with the given `id` has the given title and completed value (same node,
same place), every node keeps its identity and `id`, every node with another `id` is
as it was, the has-parent relationships are as they were, and when no node has the
`id` the store is unchanged.  `updateTask` of `src/main.go` changes the store the
same way. -/
theorem C8_update_sets_title_and_completed_only (g : Graph) (taskID title : String)
    (completed : Bool) :
    (TaskService.UpdateTask g taskID title completed none).2 = Except.ok () ∧
    (∀ t ∈ (TaskService.UpdateTask g taskID title completed none).1.nodes,
      t.id = taskID → t.title = title ∧ t.completed = completed) ∧
    (∀ (i : Nat) (t : Node), g.nodes[i]? = some t → t.id = taskID →
      (TaskService.UpdateTask g taskID title completed none).1.nodes[i]?
        = some ⟨t.nid, t.id, title, completed⟩) ∧
    (∀ (i : Nat) (t : Node), g.nodes[i]? = some t → t.id ≠ taskID →
      (TaskService.UpdateTask g taskID title completed none).1.nodes[i]? = some t) ∧
    (TaskService.UpdateTask g taskID title completed none).1.nodes.map (fun t => (t.nid, t.id))
      = g.nodes.map (fun t => (t.nid, t.id)) ∧
    (TaskService.UpdateTask g taskID title completed none).1.rels = g.rels ∧
    (g.matchTask taskID = [] →
      (TaskService.UpdateTask g taskID title completed none).1 = g) ∧
    (Main.updateTask g taskID (some (title, completed)) none).1
      = (TaskService.UpdateTask g taskID title completed none).1 := by
  refine ⟨rfl, ?_, ?_, ?_, ?_, rfl, ?_, rfl⟩
  · intro t ht hid
    simp only [TaskService.UpdateTask, Graph.setTask, List.mem_map] at ht
    obtain ⟨u, _, rfl⟩ := ht
    by_cases hu : u.id = taskID
    · simp [hu]
    · simp [hu] at hid
  · intro i t hi hid
    simp [TaskService.UpdateTask, Graph.setTask, List.getElem?_map, hi, hid]
  · intro i t hi hid
    simp [TaskService.UpdateTask, Graph.setTask, List.getElem?_map, hi, hid]
  · simp only [TaskService.UpdateTask, Graph.setTask, List.map_map]
    apply List.map_congr_left
    intro t _
    by_cases ht : t.id = taskID <;> simp [ht]
  · intro hm
    have hall : ∀ t ∈ g.nodes, t.id ≠ taskID := by
      intro t ht hid
      have : t ∈ g.matchTask taskID := by simp [Graph.matchTask, ht, hid]
      rw [hm] at this
      exact absurd this (List.not_mem_nil t)
    have hnodes : g.nodes.map
        (fun t => if t.id = taskID then { t with title := title, completed := completed } else t)
        = g.nodes := by
      conv_rhs => rw [← List.map_id g.nodes]
      apply List.map_congr_left
      intro t ht
      simp [hall t ht]
    simp only [TaskService.UpdateTask, Graph.setTask, hnodes]


/-- C5 (counterexample): two `CreateTask` calls that both supply the identifier "a"
give a reachable store with two task nodes of that `id`. -/
theorem C5_supplied_id_is_stored_twice :
    Reachable storeDup ∧ ¬ storeDup.UniqueIDs := by
  constructor
  · exact Reachable.step
      (Reachable.step Reachable.empty
        (Step.create Graph.empty ⟨"a", "first", false, none⟩ "u1" 0 none none
          (by decide) (by decide)))
      (Step.create _ ⟨"a", "second", false, none⟩ "u2" 1 none none (by decide) (by decide))
  · unfold Graph.UniqueIDs
    decide

/-- C5 (amended): in every store built from the empty store by `CreateTask`,
`UpdateTask` and `DeleteTask` calls in which each created task gets an identifier
that no stored task carries (a generated one, or a supplied one that is new), no two
task nodes have the same `id`. -/
theorem C5_unique_ids_when_created_ids_are_new (g : Graph) (h : ReachableNewIDs g) :
    g.UniqueIDs := by
  induction h with
  | empty => exact List.nodup_nil
  | create task uuid pos txErr1 txErr2 _ hnew ih =>
    exact uniqueIDs_CreateTask ih task uuid pos txErr1 txErr2 hnew
  | update taskID title completed txErr _ ih =>
    exact uniqueIDs_UpdateTask ih taskID title completed txErr
  | delete taskID txErr _ ih => exact uniqueIDs_DeleteTask ih taskID txErr

/-- C5 (witness): the store with A and its child B is built with new identifiers, and
its two nodes have different `id`s. -/
theorem C5_unique_ids_witness : storeAB.UniqueIDs :=
  C5_unique_ids_when_created_ids_are_new storeAB
    (ReachableNewIDs.create ⟨"", "B", false, some "a"⟩ "b" 1 none none
      (ReachableNewIDs.create ⟨"", "A", false, none⟩ "a" 0 none none
        ReachableNewIDs.empty (by decide))
      (by decide))


/-- C2 (the code against the claim): for every reachable store and every task input
whose identifier (the generated one when the input has none) is carried by no stored
task and whose `parent_id` is absent or the `id` of a stored task, `CreateTask` (no
write transaction failing) returns the task R with the input's title, completed
value and `parent_id`, and the store then holds R: `getTaskByID` of `src/main.go`
reads exactly R back.  `TaskService.GetTaskByID` of R's `id` does not: its read
succeeding, it returns the error of the failed type assertion. -/
theorem C2_create_then_service_get_fails (g : Graph) (task : Task) (uuid : String) (pos : Nat)
    (resErr : Option String) (hg : Reachable g)
    (hnew : g.matchTask (TaskService.assignID task uuid).ID = [])
    (hparent : task.ParentID = none ∨
      ∃ p : String, task.ParentID = some p ∧ ∃ t ∈ g.nodes, t.id = p) :
    (TaskService.CreateTask g task uuid pos none none).2
      = Except.ok (TaskService.assignID task uuid) ∧
    (TaskService.assignID task uuid).Title = task.Title ∧
    (TaskService.assignID task uuid).Completed = task.Completed ∧
    (TaskService.assignID task uuid).ParentID = task.ParentID ∧
    Main.getTaskByID (TaskService.CreateTask g task uuid pos none none).1
        (TaskService.assignID task uuid).ID none
      = Reply.sent 200 (Body.task (TaskService.assignID task uuid)) ∧
    TaskService.GetTaskByID (TaskService.CreateTask g task uuid pos none none).1
        (TaskService.assignID task uuid).ID none TaskService.runValueIsResult resErr
      = Except.error (Fault.error "failed to assert result to neo4j.Result") := by
  have hI := hg.inv
  have hT : (TaskService.assignID task uuid).Title = task.Title := by
    unfold TaskService.assignID; split <;> rfl
  have hC : (TaskService.assignID task uuid).Completed = task.Completed := by
    unfold TaskService.assignID; split <;> rfl
  have hP : (TaskService.assignID task uuid).ParentID = task.ParentID := by
    unfold TaskService.assignID; split <;> rfl
  refine ⟨by simp [TaskService.CreateTask], hT, hC, hP, ?_,
    GetTaskByID_assertion_fails _ _ resErr⟩
  rw [← hP] at hparent
  simp only [TaskService.CreateTask]
  generalize TaskService.assignID task uuid = R at hnew hparent ⊢
  obtain ⟨id, title, completed, parent⟩ := R
  simp only at hnew hparent ⊢
  have hm := matchTask_createNode_new pos id title completed hnew
  rcases hparent with hp | ⟨p, hp, t, ht, htp⟩
  · subst hp
    exact Main_getTaskByID_no_parent hm (parents_createNode_new hI pos id title completed)
  · subst hp
    have hpne : p ≠ "" := htp ▸ hI.id_ne t ht
    simp only [ne_eq, hpne, not_false_eq_true, if_true]
    have hm2 : ((g.createNode pos id title completed).createRels id p).matchTask id
        = [⟨g.next, id, title, completed⟩] := hm
    have hin : ∀ q ∈ ((g.createNode pos id title completed).createRels id p).parents
        ⟨g.next, id, title, completed⟩, q.id = p := by
      intro q hq
      obtain ⟨hq1, hr⟩ := (mem_parents _ _ q).1 hq
      rcases (mem_createRels_rels _ id p _).1 hr with hr | ⟨c, _, _, p1, hp1, hp1i, hcp⟩
      · have := (hI.rel_lt _ hr).1
        simp only at this
        omega
      · simp only [Prod.mk.injEq] at hcp
        have : q = p1 := createNode_nid_inj hI pos id title completed q hq1 p1 hp1 hcp.2
        rw [this]
        exact hp1i
    have hmem : t ∈ ((g.createNode pos id title completed).createRels id p).parents
        ⟨g.next, id, title, completed⟩ := by
      have ht1 : t ∈ (g.createNode pos id title completed).nodes :=
        (mem_createNode_nodes g pos id title completed t).2 (Or.inr ht)
      refine (mem_parents _ _ t).2 ⟨ht1, ?_⟩
      exact (mem_createRels_rels _ id p _).2
        (Or.inr ⟨⟨g.next, id, title, completed⟩,
          (mem_createNode_nodes g pos id title completed _).2 (Or.inl rfl), rfl, t, ht1, htp, rfl⟩)
    cases hpar : ((g.createNode pos id title completed).createRels id p).parents
        ⟨g.next, id, title, completed⟩ with
    | nil =>
      rw [hpar] at hmem
      exact absurd hmem (List.not_mem_nil t)
    | cons q qs =>
      have hq : q.id = p := hin q (by rw [hpar]; exact List.mem_cons_self q qs)
      have := Main_getTaskByID_parent hm2 hpar
      rw [hq] at this
      exact this

/-- C2 (the failing input): in the store that holds A, creating B with `parent_id` "a"
and reading B back. -/
theorem C2_create_then_service_get_fails_witness :
    (TaskService.CreateTask storeA ⟨"", "B", false, some "a"⟩ "b" 1 none none).2
      = Except.ok (TaskService.assignID ⟨"", "B", false, some "a"⟩ "b") ∧
    (TaskService.assignID ⟨"", "B", false, some "a"⟩ "b").Title = "B" ∧
    (TaskService.assignID ⟨"", "B", false, some "a"⟩ "b").Completed = false ∧
    (TaskService.assignID ⟨"", "B", false, some "a"⟩ "b").ParentID = some "a" ∧
    Main.getTaskByID (TaskService.CreateTask storeA ⟨"", "B", false, some "a"⟩ "b" 1 none none).1
        (TaskService.assignID ⟨"", "B", false, some "a"⟩ "b").ID none
      = Reply.sent 200 (Body.task (TaskService.assignID ⟨"", "B", false, some "a"⟩ "b")) ∧
    TaskService.GetTaskByID
        (TaskService.CreateTask storeA ⟨"", "B", false, some "a"⟩ "b" 1 none none).1
        (TaskService.assignID ⟨"", "B", false, some "a"⟩ "b").ID none
        TaskService.runValueIsResult none
      = Except.error (Fault.error "failed to assert result to neo4j.Result") :=
  C2_create_then_service_get_fails storeA ⟨"", "B", false, some "a"⟩ "b" 1 none
    (Reachable.step Reachable.empty
      (Step.create Graph.empty ⟨"", "A", false, none⟩ "a" 0 none none (by decide) (by decide)))
    (by decide)
    (Or.inr ⟨"a", rfl, ⟨0, "a", "A", false⟩, by decide, rfl⟩)

/-- C9 (the code against the claim): for every reachable store and every task input
whose identifier (the generated one when the input has none) is carried by no stored
task and whose `parent_id` is the `id` of no stored task and differs from the task's
own identifier, `CreateTask` (its node transaction not failing) returns the task
without error and the store gains exactly the one new node and no relationship, so
that `getTaskByID` of `src/main.go` reads the task back with `parent_id` absent.
`TaskService.GetTaskByID` of the new identifier does not: its read succeeding, it
returns the error of the failed type assertion. -/
theorem C9_create_with_unknown_parent_service_get_fails (g : Graph) (task : Task)
    (uuid : String) (pos : Nat) (txErr2 resErr : Option String) (p : String)
    (hg : Reachable g)
    (hnew : g.matchTask (TaskService.assignID task uuid).ID = [])
    (hp : task.ParentID = some p) (hpm : g.matchTask p = [])
    (hpid : p ≠ (TaskService.assignID task uuid).ID) :
    (TaskService.CreateTask g task uuid pos none txErr2).2
      = Except.ok (TaskService.assignID task uuid) ∧
    (TaskService.CreateTask g task uuid pos none txErr2).1.nodes.Perm
      (⟨g.next, (TaskService.assignID task uuid).ID, task.Title, task.Completed⟩ :: g.nodes) ∧
    (TaskService.CreateTask g task uuid pos none txErr2).1.rels = g.rels ∧
    Main.getTaskByID (TaskService.CreateTask g task uuid pos none txErr2).1
        (TaskService.assignID task uuid).ID none
      = Reply.sent 200
          (Body.task ⟨(TaskService.assignID task uuid).ID, task.Title, task.Completed, none⟩) ∧
    TaskService.GetTaskByID (TaskService.CreateTask g task uuid pos none txErr2).1
        (TaskService.assignID task uuid).ID none TaskService.runValueIsResult resErr
      = Except.error (Fault.error "failed to assert result to neo4j.Result") := by
  have hI := hg.inv
  have hT : (TaskService.assignID task uuid).Title = task.Title := by
    unfold TaskService.assignID; split <;> rfl
  have hC : (TaskService.assignID task uuid).Completed = task.Completed := by
    unfold TaskService.assignID; split <;> rfl
  have hP : (TaskService.assignID task uuid).ParentID = task.ParentID := by
    unfold TaskService.assignID; split <;> rfl
  refine ⟨by simp [TaskService.CreateTask], ?_⟩
  rw [← hP] at hp
  rw [← hT, ← hC]
  have hstore : (TaskService.CreateTask g task uuid pos none txErr2).1
      = g.createNode pos (TaskService.assignID task uuid).ID
          (TaskService.assignID task uuid).Title (TaskService.assignID task uuid).Completed := by
    have hm1 : (g.createNode pos (TaskService.assignID task uuid).ID
        (TaskService.assignID task uuid).Title
        (TaskService.assignID task uuid).Completed).matchTask p = [] := by
      rw [matchTask_createNode_other g pos _ _ _ p (Ne.symm hpid)]
      exact hpm
    simp only [TaskService.CreateTask, hp]
    split
    · cases txErr2 with
      | some e => rfl
      | none => exact createRels_no_parent _ p hm1
    · rfl
  rw [hstore]
  refine ⟨createNode_nodes_perm g pos _ _ _, rfl, ?_, GetTaskByID_assertion_fails _ _ resErr⟩
  exact Main_getTaskByID_no_parent (matchTask_createNode_new pos _ _ _ hnew)
    (parents_createNode_new hI pos _ _ _)

/-- C9 (the failing input): in the store that holds A, creating a task with the
`parent_id` "zzz" of no task and reading it back. -/
theorem C9_create_with_unknown_parent_witness :
    (TaskService.CreateTask storeA ⟨"", "B", false, some "zzz"⟩ "b" 1 none none).2
      = Except.ok (TaskService.assignID ⟨"", "B", false, some "zzz"⟩ "b") ∧
    (TaskService.CreateTask storeA ⟨"", "B", false, some "zzz"⟩ "b" 1 none none).1.nodes.Perm
      (⟨storeA.next, (TaskService.assignID ⟨"", "B", false, some "zzz"⟩ "b").ID, "B", false⟩
        :: storeA.nodes) ∧
    (TaskService.CreateTask storeA ⟨"", "B", false, some "zzz"⟩ "b" 1 none none).1.rels
      = storeA.rels ∧
    Main.getTaskByID
        (TaskService.CreateTask storeA ⟨"", "B", false, some "zzz"⟩ "b" 1 none none).1
        (TaskService.assignID ⟨"", "B", false, some "zzz"⟩ "b").ID none
      = Reply.sent 200
          (Body.task ⟨(TaskService.assignID ⟨"", "B", false, some "zzz"⟩ "b").ID, "B", false, none⟩) ∧
    TaskService.GetTaskByID
        (TaskService.CreateTask storeA ⟨"", "B", false, some "zzz"⟩ "b" 1 none none).1
        (TaskService.assignID ⟨"", "B", false, some "zzz"⟩ "b").ID none
        TaskService.runValueIsResult none
      = Except.error (Fault.error "failed to assert result to neo4j.Result") :=
  C9_create_with_unknown_parent_service_get_fails storeA ⟨"", "B", false, some "zzz"⟩ "b" 1
    none none "zzz"
    (Reachable.step Reachable.empty
      (Step.create Graph.empty ⟨"", "A", false, none⟩ "a" 0 none none (by decide) (by decide)))
    (by decide) rfl (by decide) (by decide)

end TodoNeo4j
